import Mathlib

/-- Python values stored in the database: the None object, integers, and
pairs (tuples), which allow arbitrarily nested payloads. Both keys and
values of the store live in this type, mirroring the opaque, picklable
Python data the repository stores. -/
inductive PyVal where
  | none
  | int (n : Int)
  | pair (a b : PyVal)
  deriving DecidableEq

/-- Serialization of one value, modelling `pickle.dumps` (an external
library, abstracted as an injective byte encoding): a tag byte followed by
the payload. An integer n is stored as the two naturals n.toNat and
(-n).toNat. -/
def dumpVal : PyVal → List Nat
  | PyVal.none => [0]
  | PyVal.int n => [1, n.toNat, (-n).toNat]
  | PyVal.pair a b => 2 :: (dumpVal a ++ dumpVal b)

/-- Deserialization of one value, the inverse of `dumpVal`, with explicit
fuel bounding the recursion depth; callers pass at least the length of the
input, which always suffices. Returns the decoded value and the unconsumed
suffix, or nothing on malformed input. -/
def loadVal : Nat → List Nat → Option (PyVal × List Nat)
  | 0, _ => Option.none
  | _ + 1, [] => Option.none
  | _ + 1, 0 :: rest => some (PyVal.none, rest)
  | _ + 1, 1 :: a :: b :: rest => some (PyVal.int ((a : Int) - (b : Int)), rest)
  | fuel + 1, 2 :: rest =>
      match loadVal fuel rest with
      | some (x, r1) =>
          match loadVal fuel r1 with
          | some (y, r2) => some (PyVal.pair x y, r2)
          | Option.none => Option.none
      | Option.none => Option.none
  | _ + 1, _ => Option.none

/-- Serialization of the entries of the mapping, in order. -/
def dumpEntries : List (PyVal × PyVal) → List Nat
  | [] => []
  | (k, v) :: rest => dumpVal k ++ dumpVal v ++ dumpEntries rest

/-- Model of `pickle.dumps(self.data)`: the number of entries followed by
the serialized key/value pairs in insertion order. -/
def pickleDumps (d : List (PyVal × PyVal)) : List Nat :=
  d.length :: dumpEntries d

/-- Deserialization of a given number of key/value pairs. -/
def loadEntries : Nat → Nat → List Nat → Option (List (PyVal × PyVal) × List Nat)
  | _, 0, bytes => some ([], bytes)
  | fuel, n + 1, bytes =>
      match loadVal fuel bytes with
      | some (k, r1) =>
          match loadVal fuel r1 with
          | some (v, r2) =>
              match loadEntries fuel n r2 with
              | some (es, r3) => some ((k, v) :: es, r3)
              | Option.none => Option.none
          | Option.none => Option.none
      | Option.none => Option.none

/-- Model of `pickle.loads`: decodes a full snapshot back into a mapping,
failing on corrupt or truncated input. -/
def pickleLoads (bytes : List Nat) : Option (List (PyVal × PyVal)) :=
  match bytes with
  | [] => Option.none
  | n :: rest =>
      match loadEntries bytes.length n rest with
      | some (es, []) => some es
      | _ => Option.none

theorem dumpVal_length_pos (v : PyVal) : 1 ≤ (dumpVal v).length := by
  cases v <;> simp [dumpVal]

theorem loadVal_dumpVal (v : PyVal) :
    ∀ (fuel : Nat) (rest : List Nat), (dumpVal v).length ≤ fuel →
      loadVal fuel (dumpVal v ++ rest) = some (v, rest) := by
  induction v with
  | none =>
      intro fuel rest h
      simp [dumpVal] at h
      cases fuel with
      | zero => omega
      | succ f => simp [dumpVal, loadVal]
  | int n =>
      intro fuel rest h
      simp [dumpVal] at h
      cases fuel with
      | zero => omega
      | succ f =>
          have hn : ((n.toNat : Int) - ((-n).toNat : Int)) = n := by omega
          simp [dumpVal, loadVal, hn]
  | pair a b iha ihb =>
      intro fuel rest h
      have ha := dumpVal_length_pos a
      have hb := dumpVal_length_pos b
      simp [dumpVal] at h
      cases fuel with
      | zero => omega
      | succ f =>
          have h1 : (dumpVal a).length ≤ f := by omega
          have h2 : (dumpVal b).length ≤ f := by omega
          simp only [dumpVal, List.cons_append, loadVal, List.append_eq, List.append_assoc]
          simp only [iha f (dumpVal b ++ rest) h1, ihb f rest h2]

theorem loadEntries_dumpEntries (d : List (PyVal × PyVal)) :
    ∀ (fuel : Nat) (rest : List Nat), (dumpEntries d).length ≤ fuel →
      loadEntries fuel d.length (dumpEntries d ++ rest) = some (d, rest) := by
  induction d with
  | nil =>
      intro fuel rest h
      simp [dumpEntries, loadEntries]
  | cons kv tl ih =>
      intro fuel rest h
      obtain ⟨k, v⟩ := kv
      simp [dumpEntries] at h
      have hk := dumpVal_length_pos k
      have hv := dumpVal_length_pos v
      simp only [dumpEntries, List.length_cons, List.append_assoc, loadEntries,
        List.append_eq]
      simp only [loadVal_dumpVal k fuel (dumpVal v ++ (dumpEntries tl ++ rest)) (by omega),
        loadVal_dumpVal v fuel (dumpEntries tl ++ rest) (by omega),
        ih fuel rest (by omega)]

/-- The pickle model is a faithful round trip: decoding an encoded mapping
recovers exactly the mapping that was encoded. -/
theorem pickleLoads_pickleDumps (d : List (PyVal × PyVal)) :
    pickleLoads (pickleDumps d) = some d := by
  have h := loadEntries_dumpEntries d ((dumpEntries d).length + 1) [] (by omega)
  rw [List.append_nil] at h
  simp [pickleDumps, pickleLoads, h]

/-- Model of the Python dict method `self.data.get(key, default)` restricted
to a default of None at the call sites: the value bound to the first entry
with the given key, if any. The repository keeps keys unique, so the first
match is the only match. -/
def dictGet (data : List (PyVal × PyVal)) (k : PyVal) : Option PyVal :=
  match data with
  | [] => Option.none
  | (q, v) :: rest => if q = k then some v else dictGet rest k

/-- Model of the Python membership test `key in self.data`. -/
def dictContains (data : List (PyVal × PyVal)) (k : PyVal) : Bool :=
  (dictGet data k).isSome

/-- Model of the removal effect of `self.data.pop(key, None)`: removes the
entry carrying the key (the first, and under the dict invariant the only,
occurrence). -/
def dictRemove (data : List (PyVal × PyVal)) (k : PyVal) : List (PyVal × PyVal)
  :=
  match data with
  | [] => []
  | (q, v) :: rest => if q = k then rest else (q, v) :: dictRemove rest k

/-- The Python dict invariant: every key occurs at most once. -/
def keysDistinct : List (PyVal × PyVal) → Bool
  | [] => true
  | (q, _) :: rest => !dictContains rest q && keysDistinct rest

/-- Body of `DataBase.set_value` (src/Database.py lines 20 to 27) acting on
the mapping: if the key is present, leave the mapping alone and report
False; otherwise bind the key (a fresh dict entry appends in insertion
order) and report True. -/
def setValueData (data : List (PyVal × PyVal)) (k v : PyVal) :
    List (PyVal × PyVal) × Bool :=
  if dictContains data k then (data, false)
  else (data ++ [(k, v)], true)

/-- Body of `DataBase.get_value` (lines 29 to 34): inside the membership
test it returns `self.data.get(key, None)`; when the test fails the Python
function falls off the end and returns None. -/
def getValueData (data : List (PyVal × PyVal)) (k : PyVal) : PyVal :=
  if dictContains data k then (dictGet data k).getD PyVal.none
  else PyVal.none

/-- Body of `DataBase.delete` (lines 36 to 41): inside the membership test
it returns `self.data.pop(key, None)`, which removes the entry and returns
its value; when the test fails the function falls off the end, returning
None and leaving the mapping untouched. Returns the new mapping and the
returned value. -/
def deleteData (data : List (PyVal × PyVal)) (k : PyVal) :
    List (PyVal × PyVal) × PyVal :=
  if dictContains data k then (dictRemove data k, (dictGet data k).getD PyVal.none)
  else (data, PyVal.none)

/-- The class `DataBase`: a simple in-memory key-value store whose only
state is the dict `self.data`. -/
structure DataBase where
  data : List (PyVal × PyVal)
  deriving DecidableEq

def DataBase.set_value (db : DataBase) (k v : PyVal) : DataBase × Bool :=
  ({ data := (setValueData db.data k v).1 }, (setValueData db.data k v).2)

def DataBase.get_value (db : DataBase) (k : PyVal) : PyVal :=
  getValueData db.data k

def DataBase.delete (db : DataBase) (k : PyVal) : DataBase × PyVal :=
  ({ data := (deleteData db.data k).1 }, (deleteData db.data k).2)

/-- One observable synchronization or file event, at the granularity of the
win32 calls the source makes. -/
inductive Event where
  | acqWriteLock
  | relWriteLock
  | acqMutex
  | relMutex
  | acqReadSlot
  | relReadSlot
  | acqFileMutex
  | relFileMutex
  | fileRead
  | fileWrite (bytes : List Nat)
  deriving DecidableEq

/-- How many gates the executing actor currently holds: acquisition counts
for the three mutexes (Windows mutexes are recursive, so a count models
them faithfully) and the number of read-semaphore slots taken. -/
structure Held where
  writeLock : Nat
  mutex : Nat
  fileMutex : Nat
  readSlots : Nat
  deriving DecidableEq

/-- No gate held: the state of a caller entering a public operation. -/
def Held.free : Held := { writeLock := 0, mutex := 0, fileMutex := 0, readSlots := 0 }

/-- The state of the one snapshot file every instance in this repository
targets: its byte contents, or nothing when the file does not exist. -/
structure World where
  file : Option (List Nat)
  deriving DecidableEq

/-- Count of occurrences of one event in a trace. -/
def countEvent (e : Event) : List Event → Nat
  | [] => 0
  | x :: rest => (if x = e then 1 else 0) + countEvent e rest

/-- Body of `SerializedDataBase.save` (lines 54 to 67): take the file
mutex, open the file with CREATE_ALWAYS (which creates or truncates it),
write the pickled mapping, and in the finally block close the handle and
release the file mutex. The flag `writeFails` injects the environment
fault in which the WriteFile call raises an I/O error; the truncation by
CREATE_ALWAYS has already happened, and the finally block still releases
the file mutex before the error propagates. -/
def saveRun (data : List (PyVal × PyVal)) (held : Held) (w : World)
    (writeFails : Bool) :
    Except String Unit × Held × World × List Event :=
  let held1 : Held := { held with fileMutex := held.fileMutex + 1 }
  if writeFails then
    (Except.error ("WriteFile failed"),
      { held1 with fileMutex := held1.fileMutex - 1 },
      { w with file := some [] },
      [Event.acqFileMutex, Event.relFileMutex])
  else
    (Except.ok (),
      { held1 with fileMutex := held1.fileMutex - 1 },
      { w with file := some (pickleDumps data) },
      [Event.acqFileMutex, Event.fileWrite (pickleDumps data), Event.relFileMutex])

/-- Body of `SerializedDataBase.load` (lines 69 to 84): take the file
mutex; if the file exists, read all of it and unpickle, the result
becoming the whole new mapping; if it does not exist, the mapping becomes
empty. Corrupt contents make `pickle.loads` raise, and the finally block
releases the file mutex before the error propagates. Returns the loaded
mapping (the new value of `self.data`). -/
def loadRun (held : Held) (w : World) :
    Except String (List (PyVal × PyVal)) × Held × List Event :=
  let held1 : Held := { held with fileMutex := held.fileMutex + 1 }
  match w.file with
  | Option.none =>
      (Except.ok [],
        { held1 with fileMutex := held1.fileMutex - 1 },
        [Event.acqFileMutex, Event.relFileMutex])
  | some bytes =>
      match pickleLoads bytes with
      | some d =>
          (Except.ok d,
            { held1 with fileMutex := held1.fileMutex - 1 },
            [Event.acqFileMutex, Event.fileRead, Event.relFileMutex])
      | Option.none =>
          (Except.error ("pickle.loads failed"),
            { held1 with fileMutex := held1.fileMutex - 1 },
            [Event.acqFileMutex, Event.fileRead, Event.relFileMutex])

/-- The class `SerializedDataBase`: a `DataBase` that also remembers the
snapshot file path. -/
structure SerializedDataBase where
  filename : String
  data : List (PyVal × PyVal)
  deriving DecidableEq

def SerializedDataBase.save (db : SerializedDataBase) (held : Held) (w : World)
    (writeFails : Bool) :
    Except String Unit × Held × World × List Event :=
  saveRun db.data held w writeFails

def SerializedDataBase.load (db : SerializedDataBase) (held : Held) (w : World) :
    Except String SerializedDataBase × Held × List Event :=
  match loadRun held w with
  | (Except.ok d, h, ev) => (Except.ok { db with data := d }, h, ev)
  | (Except.error e, h, ev) => (Except.error e, h, ev)

/-- The two construction modes of `SynchronizedDataBase`: process-local
primitives for threads, or named Global system-wide primitives for
processes. -/
inductive Mode where
  | threads
  | processes
  deriving DecidableEq

/-- The class `SynchronizedDataBase` (lines 87 to 141): its state is the
inherited filename and mapping, the chosen mode, the hard-coded
`self.read_limit`, and the count the read semaphore was created with
(`CreateSemaphore(None, self.read_limit, self.read_limit, ...)`). -/
structure SynchronizedDataBase where
  filename : String
  mode : Mode
  data : List (PyVal × PyVal)
  read_limit : Nat
  semCapacity : Nat
  deriving DecidableEq

/-- `SynchronizedDataBase.__init__` (lines 91 to 104): the superclass
constructor stores the filename, starts from an empty dict and calls
`self.load()` (so a corrupt snapshot makes construction itself raise);
then the read limit is set to the constant 10 and the three
synchronization primitives are created, the semaphore with initial and
maximum count `self.read_limit`. The mode only selects whether the
primitives carry Global names. -/
def SynchronizedDataBase.init (filename : String) (mode : Mode) (w : World) :
    Except String SynchronizedDataBase :=
  match (loadRun Held.free w).1 with
  | Except.ok d =>
      Except.ok { filename := filename, mode := mode, data := d,
                  read_limit := 10, semCapacity := 10 }
  | Except.error e => Except.error e

/-- `SynchronizedDataBase.value_set` (lines 106 to 126): wait on the write
lock, wait on the mutex, drain all `self.read_limit` semaphore slots, run
the inherited `set_value`, run `self.save()`, then release the slots, the
mutex and the write lock, and return the boolean from `set_value`. There
is no try/finally here: if `self.save()` raises, the releases never run
and the error propagates with the gates still held (only the file mutex
inside `save` is released, by the finally block of `save` itself). -/
def SynchronizedDataBase.value_set (db : SynchronizedDataBase) (k v : PyVal)
    (held : Held) (w : World) (writeFails : Bool) :
    Except String Bool × SynchronizedDataBase × Held × World × List Event :=
  let held2 : Held :=
    { held with writeLock := held.writeLock + 1, mutex := held.mutex + 1,
                readSlots := held.readSlots + db.read_limit }
  let acqEvents : List Event :=
    [Event.acqWriteLock, Event.acqMutex] ++
      List.replicate db.read_limit Event.acqReadSlot
  let sv := setValueData db.data k v
  let db1 : SynchronizedDataBase := { db with data := sv.1 }
  let s := saveRun db1.data held2 w writeFails
  match s.1 with
  | Except.error e =>
      (Except.error e, db1, s.2.1, s.2.2.1, acqEvents ++ s.2.2.2)
  | Except.ok _ =>
      (Except.ok sv.2, db1,
        { s.2.1 with readSlots := s.2.1.readSlots - db.read_limit,
                     mutex := s.2.1.mutex - 1,
                     writeLock := s.2.1.writeLock - 1 },
        s.2.2.1,
        acqEvents ++ s.2.2.2 ++ List.replicate db.read_limit Event.relReadSlot
          ++ [Event.relMutex, Event.relWriteLock])

/-- `SynchronizedDataBase.value_get` (lines 128 to 141): wait on one
read-semaphore slot, run `self.load()` (replacing the whole in-memory
mapping with the snapshot), look the key up with the inherited
`get_value`, release the slot and return the lookup result. There is no
try/finally: if `self.load()` raises, the slot release never runs and the
error propagates with the slot still held. -/
def SynchronizedDataBase.value_get (db : SynchronizedDataBase) (k : PyVal)
    (held : Held) (w : World) :
    Except String PyVal × SynchronizedDataBase × Held × List Event :=
  let held1 : Held := { held with readSlots := held.readSlots + 1 }
  match loadRun held1 w with
  | (Except.error e, h2, lev) =>
      (Except.error e, db, h2, Event.acqReadSlot :: lev)
  | (Except.ok d, h2, lev) =>
      let db1 : SynchronizedDataBase := { db with data := d }
      (Except.ok (getValueData db1.data k), db1,
        { h2 with readSlots := h2.readSlots - 1 },
        Event.acqReadSlot :: lev ++ [Event.relReadSlot])

/-- The function `value_delete` exactly as the source has it (lines 144 to
164): it sits at module scope, outside the class body, so it is not a
method of `SynchronizedDataBase`. Called as a plain function it waits on
the write lock, waits on the mutex and drains all the semaphore slots,
and then the zero-argument `super()` call on line 156 raises RuntimeError
because there is no enclosing class; nothing after that line runs, so the
mapping and the file are untouched and every acquired gate stays held. -/
def value_delete (db : SynchronizedDataBase) (k : PyVal) (held : Held)
    (w : World) :
    Except String PyVal × SynchronizedDataBase × Held × World × List Event :=
  let held2 : Held :=
    { held with writeLock := held.writeLock + 1, mutex := held.mutex + 1,
                readSlots := held.readSlots + db.read_limit }
  (Except.error ("RuntimeError from zero-argument super at module scope"),
    db, held2, w,
    [Event.acqWriteLock, Event.acqMutex] ++
      List.replicate db.read_limit Event.acqReadSlot)

/-- Method resolution for `delete` on a `SynchronizedDataBase` instance:
the class defines no delete of its own (`value_delete` is at module
scope), so `db.delete(key)` runs the inherited in-memory `DataBase.delete`
with no locking and no saving. The world is threaded through unchanged
because the inherited method performs no I/O. -/
def SynchronizedDataBase.delete (db : SynchronizedDataBase) (k : PyVal)
    (w : World) :
    SynchronizedDataBase × PyVal × World :=
  ({ db with data := (deleteData db.data k).1 }, (deleteData db.data k).2, w)

/-- The full event trace of a successful `value_set` call. -/
def valueSetTrace (n : Nat) (bytes : List Nat) : List Event :=
  [Event.acqWriteLock, Event.acqMutex] ++
    List.replicate n Event.acqReadSlot ++
    [Event.acqFileMutex, Event.fileWrite bytes, Event.relFileMutex] ++
    List.replicate n Event.relReadSlot ++
    [Event.relMutex, Event.relWriteLock]

/-- Modelled from the spec: the event sequence section 4.4 claims for
`set` — acquire the write gate, drain all N read slots, write the full
store to the snapshot file, release all N read slots, release the write
gate (the in-memory insert is not a lock or file event). -/
def specSetEvents (n : Nat) (bytes : List Nat) : List Event :=
  [Event.acqWriteLock] ++ List.replicate n Event.acqReadSlot ++
    [Event.fileWrite bytes] ++ List.replicate n Event.relReadSlot ++
    [Event.relWriteLock]

/-- A concretely constructed store used by the closed evaluation theorems:
the result of constructing against the filename of the test harnesses in
threads mode with no snapshot file present. -/
def dbEx : SynchronizedDataBase :=
  { filename := "test.pkl", mode := Mode.threads, data := [],
    read_limit := 10, semCapacity := 10 }

theorem dictContains_cons_false (q u : PyVal) (rest : List (PyVal × PyVal))
    (k : PyVal) (h : dictContains ((q, u) :: rest) k = false) :
    q ≠ k ∧ dictContains rest k = false := by
  by_cases hq : q = k
  · subst hq
    simp [dictContains, dictGet] at h
  · refine ⟨hq, ?_⟩
    simpa [dictContains, dictGet, hq] using h

theorem dictGet_append_self (data : List (PyVal × PyVal)) (k v : PyVal)
    (h : dictContains data k = false) :
    dictGet (data ++ [(k, v)]) k = some v := by
  induction data with
  | nil => simp [dictGet]
  | cons p rest ih =>
      obtain ⟨q, u⟩ := p
      obtain ⟨hq, hrest⟩ := dictContains_cons_false q u rest k h
      simp only [List.cons_append, dictGet, if_neg hq]
      exact ih hrest

theorem dictGet_append_other (data : List (PyVal × PyVal)) (k v q : PyVal)
    (hq : q ≠ k) :
    dictGet (data ++ [(k, v)]) q = dictGet data q := by
  induction data with
  | nil =>
      simp only [List.nil_append, dictGet]
      rw [if_neg (fun h => hq h.symm)]
  | cons p rest ih =>
      obtain ⟨a, u⟩ := p
      by_cases ha : a = q
      · simp [dictGet, ha]
      · simp only [List.cons_append, dictGet, if_neg ha]
        exact ih

theorem dictGet_remove_other (data : List (PyVal × PyVal)) (k q : PyVal)
    (hq : q ≠ k) :
    dictGet (dictRemove data k) q = dictGet data q := by
  induction data with
  | nil => simp [dictRemove]
  | cons p rest ih =>
      obtain ⟨a, u⟩ := p
      by_cases ha : a = k
      · subst ha
        have haq : ¬ a = q := fun h => hq h.symm
        simp [dictRemove, dictGet, haq]
      · by_cases haq : a = q
        · simp [dictRemove, dictGet, ha, haq, hq]
        · simp [dictRemove, dictGet, ha, haq, ih]

theorem dictGet_remove_self (data : List (PyVal × PyVal)) (k : PyVal)
    (h : keysDistinct data = true) :
    dictGet (dictRemove data k) k = Option.none := by
  induction data with
  | nil => simp [dictRemove, dictGet]
  | cons p rest ih =>
      obtain ⟨a, u⟩ := p
      simp only [keysDistinct, Bool.and_eq_true, Bool.not_eq_true'] at h
      by_cases ha : a = k
      · subst ha
        simp only [dictRemove, if_pos rfl]
        have := h.1
        simp only [dictContains] at this
        cases hg : dictGet rest a with
        | none => exact hg
        | some v => rw [hg] at this; simp at this
      · simp only [dictRemove, if_neg ha, dictGet, if_neg ha]
        exact ih h.2

theorem countEvent_append (e : Event) (l1 l2 : List Event) :
    countEvent e (l1 ++ l2) = countEvent e l1 + countEvent e l2 := by
  induction l1 with
  | nil => simp [countEvent]
  | cons x rest ih => simp [countEvent, ih]; omega

theorem countEvent_replicate (e x : Event) (n : Nat) :
    countEvent e (List.replicate n x) = if x = e then n else 0 := by
  induction n with
  | zero => simp [countEvent]
  | succ m ih =>
      rw [List.replicate_succ]
      simp only [countEvent, ih]
      by_cases hx : x = e
      · simp [hx]
        omega
      · simp [hx]

theorem countEvent_valueSetTrace (n : Nat) (bytes : List Nat) :
    countEvent Event.acqReadSlot (valueSetTrace n bytes) = n := by
  simp [valueSetTrace, countEvent_append, countEvent_replicate, countEvent]

theorem countEvent_fileWrite_valueSetTrace (n : Nat) (bytes : List Nat) :
    countEvent (Event.fileWrite bytes) (valueSetTrace n bytes) = 1 := by
  simp [valueSetTrace, countEvent_append, countEvent_replicate, countEvent]

/-- Full evaluation of a `value_set` call whose save succeeds: the insert
runs, the new full mapping is pickled into the file, every gate taken is
released again, and the trace is the canonical write protocol. -/
theorem value_set_run (db : SynchronizedDataBase) (k v : PyVal) (held : Held)
    (w : World) :
    SynchronizedDataBase.value_set db k v held w false =
      (Except.ok (setValueData db.data k v).2,
       { db with data := (setValueData db.data k v).1 },
       held,
       { w with file := some (pickleDumps (setValueData db.data k v).1) },
       valueSetTrace db.read_limit (pickleDumps (setValueData db.data k v).1)) := by
  cases held with
  | mk a b c d =>
      simp [SynchronizedDataBase.value_set, saveRun, valueSetTrace]

/-- Full evaluation of a `value_get` call against a readable snapshot: the
slot is taken, the mapping is wholly replaced by the decoded snapshot, the
lookup answers from it, and the slot is released. -/
theorem value_get_run (db : SynchronizedDataBase) (k : PyVal) (held : Held)
    (w : World) (bytes : List Nat) (d : List (PyVal × PyVal))
    (hw : w.file = some bytes) (hd : pickleLoads bytes = some d) :
    SynchronizedDataBase.value_get db k held w =
      (Except.ok (getValueData d k), { db with data := d }, held,
       [Event.acqReadSlot, Event.acqFileMutex, Event.fileRead,
        Event.relFileMutex, Event.relReadSlot]) := by
  cases held with
  | mk a b c e =>
      cases w with
      | mk file =>
          simp only at hw
          subst hw
          simp [SynchronizedDataBase.value_get, loadRun, hd]

/-- Claim C3: for every key and value, if the key is already present,
set_value returns false and the mapping is unchanged (no overwrite); if the
key is absent, it inserts the pair — the key then maps to the value and
every other key reads as before — and returns true. -/
theorem claim_C3_set_value_insert_if_absent (db : DataBase) (k v q : PyVal) :
    (dictContains db.data k = true → DataBase.set_value db k v = (db, false)) ∧
    (dictContains db.data k = false →
      (DataBase.set_value db k v).2 = true ∧
      dictGet (DataBase.set_value db k v).1.data k = some v ∧
      (q ≠ k →
        dictGet (DataBase.set_value db k v).1.data q = dictGet db.data q)) := by
  constructor
  · intro h
    simp [DataBase.set_value, setValueData, h]
  · intro h
    refine ⟨?_, ?_, ?_⟩
    · simp [DataBase.set_value, setValueData, h]
    · simp [DataBase.set_value, setValueData, h, dictGet_append_self db.data k v h]
    · intro hq
      simp [DataBase.set_value, setValueData, h,
        dictGet_append_other db.data k v q hq]

/-- Witness for claim C3 at concrete inputs: a present key is refused with
the store untouched; an absent key is inserted and found, and an unrelated
key reads as before. -/
theorem claim_C3_witness :
    DataBase.set_value (DataBase.mk [(PyVal.int 0, PyVal.int 1)])
        (PyVal.int 0) (PyVal.int 7) =
      (DataBase.mk [(PyVal.int 0, PyVal.int 1)], false) ∧
    (DataBase.set_value (DataBase.mk []) (PyVal.int 2) (PyVal.int 3)).2 = true ∧
    dictGet (DataBase.set_value (DataBase.mk []) (PyVal.int 2)
        (PyVal.int 3)).1.data (PyVal.int 2) = some (PyVal.int 3) ∧
    dictGet (DataBase.set_value (DataBase.mk []) (PyVal.int 2)
        (PyVal.int 3)).1.data (PyVal.int 9) = Option.none := by
  have h1 := (claim_C3_set_value_insert_if_absent
    (DataBase.mk [(PyVal.int 0, PyVal.int 1)]) (PyVal.int 0) (PyVal.int 7)
    (PyVal.int 9)).1 (by decide)
  have h2 := (claim_C3_set_value_insert_if_absent (DataBase.mk [])
    (PyVal.int 2) (PyVal.int 3) (PyVal.int 9)).2 (by decide)
  exact ⟨h1, h2.1, h2.2.1, h2.2.2 (by decide)⟩

/-- Claim C7: delete on a present key removes it and returns the stored
value (under the dict invariant that keys are unique); delete on an absent
key returns None and leaves the mapping entirely unchanged. -/
theorem claim_C7_delete_semantics (db : DataBase) (k v q : PyVal)
    (hnd : keysDistinct db.data = true) :
    (dictGet db.data k = some v →
      (DataBase.delete db k).2 = v ∧
      dictGet (DataBase.delete db k).1.data k = Option.none ∧
      (q ≠ k → dictGet (DataBase.delete db k).1.data q = dictGet db.data q)) ∧
    (dictGet db.data k = Option.none →
      DataBase.delete db k = (db, PyVal.none)) := by
  constructor
  · intro h
    have hc : dictContains db.data k = true := by simp [dictContains, h]
    refine ⟨?_, ?_, ?_⟩
    · simp [DataBase.delete, deleteData, hc, h]
    · simp [DataBase.delete, deleteData, hc, dictGet_remove_self db.data k hnd]
    · intro hq
      simp [DataBase.delete, deleteData, hc, dictGet_remove_other db.data k q hq]
  · intro h
    have hc : dictContains db.data k = false := by simp [dictContains, h]
    simp [DataBase.delete, deleteData, hc]

/-- Witness for claim C7 at concrete inputs: deleting a present key yields
its value, makes it unreadable, keeps the other key readable; deleting an
absent key is a no-op returning None. -/
theorem claim_C7_witness :
    (DataBase.delete (DataBase.mk [(PyVal.int 0, PyVal.int 1),
        (PyVal.int 2, PyVal.none)]) (PyVal.int 0)).2 = PyVal.int 1 ∧
    dictGet (DataBase.delete (DataBase.mk [(PyVal.int 0, PyVal.int 1),
        (PyVal.int 2, PyVal.none)]) (PyVal.int 0)).1.data (PyVal.int 0) =
      Option.none ∧
    dictGet (DataBase.delete (DataBase.mk [(PyVal.int 0, PyVal.int 1),
        (PyVal.int 2, PyVal.none)]) (PyVal.int 0)).1.data (PyVal.int 2) =
      dictGet [(PyVal.int 0, PyVal.int 1), (PyVal.int 2, PyVal.none)]
        (PyVal.int 2) ∧
    DataBase.delete (DataBase.mk [(PyVal.int 0, PyVal.int 1),
        (PyVal.int 2, PyVal.none)]) (PyVal.int 5) =
      (DataBase.mk [(PyVal.int 0, PyVal.int 1), (PyVal.int 2, PyVal.none)],
        PyVal.none) := by
  have h1 := (claim_C7_delete_semantics (DataBase.mk [(PyVal.int 0, PyVal.int 1),
    (PyVal.int 2, PyVal.none)]) (PyVal.int 0) (PyVal.int 1) (PyVal.int 2)
    (by decide)).1 (by decide)
  have h2 := (claim_C7_delete_semantics (DataBase.mk [(PyVal.int 0, PyVal.int 1),
    (PyVal.int 2, PyVal.none)]) (PyVal.int 5) (PyVal.int 1) (PyVal.int 2)
    (by decide)).2 (by decide)
  exact ⟨h1.1, h1.2.1, h1.2.2 (by decide), h2⟩

/-- Claim C4: for every mapping — the empty one and mappings with nested
payload values included — save followed by load restores a mapping equal to
the one saved, whatever mapping the loading instance held before: the
round trip through the snapshot file is the identity on store contents. -/
theorem claim_C4_save_load_round_trip (db dba : SerializedDataBase)
    (held helda : Held) (w : World) :
    (SerializedDataBase.save db held w false).1 = Except.ok () ∧
    (SerializedDataBase.load dba helda
        (SerializedDataBase.save db held w false).2.2.1).1 =
      Except.ok { dba with data := db.data } := by
  constructor
  · simp [SerializedDataBase.save, saveRun]
  · simp [SerializedDataBase.save, saveRun, SerializedDataBase.load, loadRun,
      pickleLoads_pickleDumps]

/-- Claim C5: when the snapshot file does not exist, load succeeds and the
in-memory store becomes the empty mapping; when the file exists and its
contents deserialize, load replaces the entire in-memory mapping wholesale
with the decoded file contents, never merging with the prior state. -/
theorem claim_C5_load_semantics (db dba : SerializedDataBase)
    (held helda : Held) (w wa : World) (bytes : List Nat)
    (d : List (PyVal × PyVal))
    (h1 : w.file = Option.none)
    (h2 : wa.file = some bytes) (h3 : pickleLoads bytes = some d) :
    SerializedDataBase.load db held w =
      (Except.ok { db with data := [] }, held,
        [Event.acqFileMutex, Event.relFileMutex]) ∧
    SerializedDataBase.load dba helda wa =
      (Except.ok { dba with data := d }, helda,
        [Event.acqFileMutex, Event.fileRead, Event.relFileMutex]) := by
  constructor
  · cases held with
    | mk a b c e => simp [SerializedDataBase.load, loadRun, h1]
  · cases helda with
    | mk a b c e => simp [SerializedDataBase.load, loadRun, h2, h3]

/-- Witness for claim C5: loading with no file on disk empties the store
that held an entry; loading an existing snapshot of a different mapping
replaces that entry wholesale. -/
theorem claim_C5_witness :
    SerializedDataBase.load
        (SerializedDataBase.mk "test.pkl" [(PyVal.int 0, PyVal.int 1)])
        Held.free (World.mk Option.none) =
      (Except.ok (SerializedDataBase.mk "test.pkl" []), Held.free,
        [Event.acqFileMutex, Event.relFileMutex]) ∧
    SerializedDataBase.load
        (SerializedDataBase.mk "test.pkl" [(PyVal.int 0, PyVal.int 1)])
        Held.free (World.mk (some (pickleDumps [(PyVal.int 2, PyVal.int 3)]))) =
      (Except.ok (SerializedDataBase.mk "test.pkl" [(PyVal.int 2, PyVal.int 3)]),
        Held.free, [Event.acqFileMutex, Event.fileRead, Event.relFileMutex]) :=
  claim_C5_load_semantics
    (SerializedDataBase.mk "test.pkl" [(PyVal.int 0, PyVal.int 1)])
    (SerializedDataBase.mk "test.pkl" [(PyVal.int 0, PyVal.int 1)])
    Held.free Held.free (World.mk Option.none)
    (World.mk (some (pickleDumps [(PyVal.int 2, PyVal.int 3)])))
    (pickleDumps [(PyVal.int 2, PyVal.int 3)]) [(PyVal.int 2, PyVal.int 3)]
    rfl rfl (pickleLoads_pickleDumps _)

/-- Claim C10: the public read interface cannot distinguish an absent key
from a key stored with the value None — get_value returns None in both
cases, and value_get, which reloads the snapshot first, likewise returns
None both for a key bound to None in the snapshot and for a key absent
from it. -/
theorem claim_C10_none_indistinguishable (db dba : DataBase) (k ka : PyVal)
    (sdb : SynchronizedDataBase) (held helda : Held) (w : World)
    (bytes : List Nat) (d : List (PyVal × PyVal))
    (h1 : dictGet db.data k = some PyVal.none)
    (h2 : dictContains dba.data ka = false)
    (hw : w.file = some bytes) (hd : pickleLoads bytes = some d)
    (h3 : dictGet d k = some PyVal.none)
    (h4 : dictContains d ka = false) :
    DataBase.get_value db k = PyVal.none ∧
    DataBase.get_value dba ka = PyVal.none ∧
    (SynchronizedDataBase.value_get sdb k held w).1 = Except.ok PyVal.none ∧
    (SynchronizedDataBase.value_get sdb ka helda w).1 = Except.ok PyVal.none := by
  have hc : dictContains db.data k = true := by simp [dictContains, h1]
  refine ⟨?_, ?_, ?_, ?_⟩
  · simp [DataBase.get_value, getValueData, hc, h1]
  · simp [DataBase.get_value, getValueData, h2]
  · rw [value_get_run sdb k held w bytes d hw hd]
    simp [getValueData, dictContains, h3]
  · rw [value_get_run sdb ka helda w bytes d hw hd]
    simp [getValueData, h4]

/-- Witness for claim C10: with the snapshot holding key 0 bound to None,
both reading key 0 (stored None) and reading key 1 (absent) give None, in
memory and through value_get. -/
theorem claim_C10_witness :
    DataBase.get_value (DataBase.mk [(PyVal.int 0, PyVal.none)]) (PyVal.int 0) =
      PyVal.none ∧
    DataBase.get_value (DataBase.mk []) (PyVal.int 1) = PyVal.none ∧
    (SynchronizedDataBase.value_get dbEx (PyVal.int 0) Held.free
        (World.mk (some (pickleDumps [(PyVal.int 0, PyVal.none)])))).1 =
      Except.ok PyVal.none ∧
    (SynchronizedDataBase.value_get dbEx (PyVal.int 1) Held.free
        (World.mk (some (pickleDumps [(PyVal.int 0, PyVal.none)])))).1 =
      Except.ok PyVal.none :=
  claim_C10_none_indistinguishable (DataBase.mk [(PyVal.int 0, PyVal.none)])
    (DataBase.mk []) (PyVal.int 0) (PyVal.int 1) dbEx Held.free Held.free
    (World.mk (some (pickleDumps [(PyVal.int 0, PyVal.none)])))
    (pickleDumps [(PyVal.int 0, PyVal.none)]) [(PyVal.int 0, PyVal.none)]
    (by decide) (by decide) rfl (pickleLoads_pickleDumps _)
    (by decide) (by decide)

/-- Claim C6, counterexample to the sequence as stated: on a concrete call
the event trace of value_set is not the spec sequence of section 4.4 —
right after the write lock the code also waits on the second exclusive
mutex, and save takes and releases the file mutex around the file write. -/
theorem claim_C6_counterexample :
    (SynchronizedDataBase.value_set dbEx (PyVal.int 0) (PyVal.int 1)
        Held.free (World.mk Option.none) false).2.2.2.2 ≠
      specSetEvents 10 (pickleDumps [(PyVal.int 0, PyVal.int 1)]) := by
  decide

/-- Claim C6 amended: every value_set call performs exactly the sequence
acquire write lock, acquire mutex, drain all N read slots, run the
in-memory insert-if-absent, save the resulting full store (which itself
takes and releases the file mutex around the single file write), release
all N read slots, release the mutex, release the write lock; its return
value equals the boolean returned by the in-memory set step, and
afterwards the file holds the pickled new mapping and no gate is held. -/
theorem claim_C6_amended (db : SynchronizedDataBase) (k v : PyVal)
    (held : Held) (w : World) :
    SynchronizedDataBase.value_set db k v held w false =
      (Except.ok (setValueData db.data k v).2,
       { db with data := (setValueData db.data k v).1 },
       held,
       { w with file := some (pickleDumps (setValueData db.data k v).1) },
       [Event.acqWriteLock, Event.acqMutex] ++
         List.replicate db.read_limit Event.acqReadSlot ++
         [Event.acqFileMutex,
          Event.fileWrite (pickleDumps (setValueData db.data k v).1),
          Event.relFileMutex] ++
         List.replicate db.read_limit Event.relReadSlot ++
         [Event.relMutex, Event.relWriteLock]) :=
  value_set_run db k v held w

/-- Claim C9: value_set persists unconditionally — when the key is already
present the insert is refused (returns false) and the mapping is unchanged,
yet the snapshot file is still rewritten with the pickled unchanged
mapping, by exactly one file write. -/
theorem claim_C9_set_present_still_saves (db : SynchronizedDataBase)
    (k v : PyVal) (held : Held) (w : World)
    (h : dictContains db.data k = true) :
    (SynchronizedDataBase.value_set db k v held w false).1 = Except.ok false ∧
    (SynchronizedDataBase.value_set db k v held w false).2.1.data = db.data ∧
    (SynchronizedDataBase.value_set db k v held w false).2.2.2.1.file =
      some (pickleDumps db.data) ∧
    countEvent (Event.fileWrite (pickleDumps db.data))
      (SynchronizedDataBase.value_set db k v held w false).2.2.2.2 = 1 := by
  have hs : setValueData db.data k v = (db.data, false) := by
    simp [setValueData, h]
  rw [value_set_run db k v held w]
  simp [hs, countEvent_fileWrite_valueSetTrace]

/-- Witness for claim C9: with key 0 already bound, setting it again
returns false, leaves the mapping alone, and still writes the unchanged
pickled mapping into a world whose file did not even exist before. -/
theorem claim_C9_witness :
    (SynchronizedDataBase.value_set
        (SynchronizedDataBase.mk "test.pkl" Mode.threads
          [(PyVal.int 0, PyVal.int 1)] 10 10)
        (PyVal.int 0) (PyVal.int 7) Held.free (World.mk Option.none) false).1 =
      Except.ok false ∧
    (SynchronizedDataBase.value_set
        (SynchronizedDataBase.mk "test.pkl" Mode.threads
          [(PyVal.int 0, PyVal.int 1)] 10 10)
        (PyVal.int 0) (PyVal.int 7) Held.free (World.mk Option.none)
        false).2.1.data = [(PyVal.int 0, PyVal.int 1)] ∧
    (SynchronizedDataBase.value_set
        (SynchronizedDataBase.mk "test.pkl" Mode.threads
          [(PyVal.int 0, PyVal.int 1)] 10 10)
        (PyVal.int 0) (PyVal.int 7) Held.free (World.mk Option.none)
        false).2.2.2.1.file =
      some (pickleDumps [(PyVal.int 0, PyVal.int 1)]) ∧
    countEvent (Event.fileWrite (pickleDumps [(PyVal.int 0, PyVal.int 1)]))
      (SynchronizedDataBase.value_set
        (SynchronizedDataBase.mk "test.pkl" Mode.threads
          [(PyVal.int 0, PyVal.int 1)] 10 10)
        (PyVal.int 0) (PyVal.int 7) Held.free (World.mk Option.none)
        false).2.2.2.2 = 1 :=
  claim_C9_set_present_still_saves
    (SynchronizedDataBase.mk "test.pkl" Mode.threads
      [(PyVal.int 0, PyVal.int 1)] 10 10)
    (PyVal.int 0) (PyVal.int 7) Held.free (World.mk Option.none) (by decide)

/-- Claim C8, counterexample to the configurability as stated: no
construction of the store can yield a read capacity of 5 — the constructor
accepts no capacity argument and hard-codes the limit. -/
theorem claim_C8_counterexample :
    ¬ ∃ (fn : String) (mode : Mode) (w : World) (db : SynchronizedDataBase),
        SynchronizedDataBase.init fn mode w = Except.ok db ∧
        db.read_limit = 5 := by
  rintro ⟨fn, mode, w, db, h, h5⟩
  unfold SynchronizedDataBase.init at h
  split at h
  · injection h with h1
    subst h1
    simp at h5
  · cases h

/-- Claim C8 amended: construction accepts only a filename and a mode — no
readCapacity parameter exists; every successfully constructed store has
the hard-coded read limit 10, the read semaphore is created with exactly
that count, and that same limit is the number of slots value_set drains. -/
theorem claim_C8_amended (fn : String) (mode : Mode) (w : World)
    (db : SynchronizedDataBase) (k v : PyVal) (held : Held) (w2 : World)
    (h : SynchronizedDataBase.init fn mode w = Except.ok db) :
    db.read_limit = 10 ∧ db.semCapacity = db.read_limit ∧
    countEvent Event.acqReadSlot
      (SynchronizedDataBase.value_set db k v held w2 false).2.2.2.2 =
      db.read_limit := by
  have hdb : db.read_limit = 10 ∧ db.semCapacity = 10 := by
    unfold SynchronizedDataBase.init at h
    split at h
    · injection h with h1
      subst h1
      exact ⟨rfl, rfl⟩
    · cases h
  refine ⟨hdb.1, by rw [hdb.1]; exact hdb.2, ?_⟩
  rw [value_set_run db k v held w2]
  exact countEvent_valueSetTrace db.read_limit _

/-- Witness for claim C8 amended: the store constructed against a missing
snapshot in threads mode has read limit 10, a semaphore of the same count,
and a value_set drain of exactly that many slot acquisitions. -/
theorem claim_C8_witness :
    dbEx.read_limit = 10 ∧ dbEx.semCapacity = dbEx.read_limit ∧
    countEvent Event.acqReadSlot
      (SynchronizedDataBase.value_set dbEx (PyVal.int 0) (PyVal.int 1)
        Held.free (World.mk Option.none) false).2.2.2.2 = dbEx.read_limit :=
  claim_C8_amended "test.pkl" Mode.threads (World.mk Option.none) dbEx
    (PyVal.int 0) (PyVal.int 1) Held.free (World.mk Option.none) rfl

/-- Claim C2 evaluated at its failing inputs: when the WriteFile call
inside save raises during value_set, the error propagates while the write
lock, the second mutex and all ten read-semaphore slots are still held;
when the snapshot is corrupt, value_get propagates the unpickling error
while its read slot is still held. Only the file mutex — the one gate the
source wraps in try/finally, inside save and load themselves — is
released. The claimed scoped release of every acquired gate does not
happen. -/
theorem claim_C2_code_evaluation :
    (SynchronizedDataBase.value_set dbEx (PyVal.int 0) (PyVal.int 1)
        Held.free (World.mk Option.none) true).1 =
      Except.error ("WriteFile failed") ∧
    (SynchronizedDataBase.value_set dbEx (PyVal.int 0) (PyVal.int 1)
        Held.free (World.mk Option.none) true).2.2.1 =
      Held.mk 1 1 0 10 ∧
    (SynchronizedDataBase.value_get dbEx (PyVal.int 0) Held.free
        (World.mk (some [99]))).1 =
      Except.error ("pickle.loads failed") ∧
    (SynchronizedDataBase.value_get dbEx (PyVal.int 0) Held.free
        (World.mk (some [99]))).2.2.1 =
      Held.mk 0 0 0 1 :=
  ⟨rfl, rfl, rfl, rfl⟩

/-- Claim C1 evaluated at its failing input: with key 0 held both in
memory and in the snapshot, calling delete on the SynchronizedDataBase
instance runs the inherited in-memory DataBase.delete — value_delete is
stranded at module scope, outside the class — so the call returns the old
value and changes the mapping, while the on-disk snapshot still holds the
pre-delete mapping, which differs from the pickled post-delete mapping;
and calling the module-level value_delete itself raises RuntimeError after
acquiring the gates, touching neither the mapping nor the file. -/
theorem claim_C1_code_evaluation :
    SynchronizedDataBase.delete
        (SynchronizedDataBase.mk "test.pkl" Mode.threads
          [(PyVal.int 0, PyVal.int 1)] 10 10) (PyVal.int 0)
        (World.mk (some (pickleDumps [(PyVal.int 0, PyVal.int 1)]))) =
      (SynchronizedDataBase.mk "test.pkl" Mode.threads [] 10 10, PyVal.int 1,
        World.mk (some (pickleDumps [(PyVal.int 0, PyVal.int 1)]))) ∧
    some (pickleDumps [(PyVal.int 0, PyVal.int 1)]) ≠
      some (pickleDumps ([] : List (PyVal × PyVal))) ∧
    value_delete
        (SynchronizedDataBase.mk "test.pkl" Mode.threads
          [(PyVal.int 0, PyVal.int 1)] 10 10) (PyVal.int 0) Held.free
        (World.mk (some (pickleDumps [(PyVal.int 0, PyVal.int 1)]))) =
      (Except.error ("RuntimeError from zero-argument super at module scope"),
        SynchronizedDataBase.mk "test.pkl" Mode.threads
          [(PyVal.int 0, PyVal.int 1)] 10 10,
        Held.mk 1 1 0 10,
        World.mk (some (pickleDumps [(PyVal.int 0, PyVal.int 1)])),
        [Event.acqWriteLock, Event.acqMutex] ++
          List.replicate 10 Event.acqReadSlot) := by
  refine ⟨rfl, ?_, rfl⟩
  decide
